import Mathlib

/-!
# Verification of the agile sprint-board server

A shallow embedding of the Express/MySQL backend (`server/src/app.js`) and of
the authorization helpers of the Vue client (`App.vue`,
`services/api.js`) of the `agile` repository, together with proofs about the
story lifecycle, estimate normalization, authorization, archival, and the
archive-analytics aggregator.

Modelling conventions:
* JavaScript numbers that matter to the logic are modelled as `ℚ` (for the
  estimate arithmetic, which is exact: `Number`, `Math.max`) together with an
  explicit `JSNum` wrapper for the non-finite values `NaN`/`±Infinity`.
* Timestamps are integer milliseconds since the epoch (`Int`), as produced by
  `Date.getTime()`.  The server's local time zone is an explicit fixed offset
  `off` in milliseconds (`local = utc + off`); `Date.setHours` on the local
  clock and `Date.toISOString` (UTC) are expressed through it.
* The SQL store is a record of lists (`DB`); auto-increment counters are
  carried explicitly.  `pool.query` calls become pure functions on `DB`.
* `bcrypt` is an external collaborator: hashing is modelled as the identity on
  strings, `bcrypt.compare` as string equality.  Nothing proved here depends
  on properties of the hash.
* `JSON.stringify`/`JSON.parse` on the `tasks_json` column are modelled by the
  abstraction `RawSnapshot`: a cell is observed by the analytics code only
  through `Array.isArray`, truthiness, and the outcome of `JSON.parse`, so the
  cell is represented by exactly those observations.  Serialization of a task
  list produces a truthy string that parses back to the same list.
-/

/-- The `users.role` enum column (`ENUM('developer','manager','admin')`). -/
inductive Role where
  | developer
  | manager
  | admin
deriving DecidableEq, Repr

/-- A task as it appears in a story's `tasks` array after `mapStories`
(and inside a deserialized `tasksSnapshot`). -/
structure TaskView where
  id : Nat
  title : String
  done : Bool
  createdAt : Int
deriving DecidableEq, Repr

/-- A row of the `story_tasks` table. -/
structure TaskRow where
  id : Nat
  storyId : Nat
  title : String
  done : Bool
  createdAt : Int
deriving DecidableEq, Repr

/-- A row of the `users` table. -/
structure User where
  id : Nat
  username : String
  passwordHash : String
  role : Role
deriving DecidableEq, Repr

/-- A row of the `stories` table.  `ownerId = none` models a NULL
`owner_id`; the estimate is kept as the exact rational the server computed. -/
structure Story where
  id : Nat
  title : String
  description : String
  estimate : ℚ
  status : String
  ownerId : Option Nat
  createdAt : Int
deriving DecidableEq, Repr

/-- Outcome of `JSON.parse` on a (truthy) string stored in `tasks_json`:
it yields an array (further read as a task list), yields the JSON value
`null` (nullish, so the later `story.tasks?.…` accesses short-circuit),
yields some other non-null non-array value, or throws. -/
inductive ParseOutcome where
  | parsedArr (ts : List TaskView)
  | parsedNull
  | parsedNonArray
  | parseFail
deriving DecidableEq, Repr

/-- A `tasks_json` cell as observed by the analytics deserializer: an actual
array value, a truthy string together with its `JSON.parse` outcome, or a
falsy cell (NULL / empty string). -/
inductive RawSnapshot where
  | rawArr (ts : List TaskView)
  | rawStr (outcome : ParseOutcome)
  | rawNull
deriving DecidableEq, Repr

/-- `JSON.stringify` of a task list: a truthy string that parses back to the
same list (round-trip property of the JSON collaborator). -/
def serializeTasks (ts : List TaskView) : RawSnapshot :=
  .rawStr (.parsedArr ts)

/-- A row of the `archived_stories` table. -/
structure ARow where
  id : Nat
  originalStoryId : Nat
  title : String
  description : String
  estimate : ℚ
  status : String
  ownerId : Option Nat
  ownerName : Option String
  tasksJson : RawSnapshot
  completedAt : Int
deriving DecidableEq, Repr

/-- The whole SQL store, with the auto-increment counters made explicit. -/
structure DB where
  users : List User
  stories : List Story
  tasks : List TaskRow
  archived : List ARow
  nextUserId : Nat
  nextStoryId : Nat
  nextTaskId : Nat
  nextArchiveId : Nat
deriving DecidableEq, Repr

/-- The error taxonomy of the HTTP layer (status codes of the handlers). -/
inductive Err where
  | badRequest      -- 400
  | unauthorized    -- 401
  | conflict        -- 409
  | notFound        -- 404
  | internal        -- 500
deriving DecidableEq, Repr

/-! ## Estimate normalization (POST /api/stories)

`const { estimate = 1 } = req.body` followed by
`Number.isFinite(Number(estimate)) ? Math.max(1, Number(estimate)) : 1`.
The body value after the `Number(·)` coercion is a JS number: finite, `NaN`
or `±Infinity`. -/

/-- A JavaScript number after `Number(·)` coercion. -/
inductive JSNum where
  | nan
  | posInf
  | negInf
  | num (q : ℚ)
deriving DecidableEq, Repr

/-- `Number.isFinite` on a `JSNum`. -/
def JSNum.isFinite : JSNum → Bool
  | .num _ => true
  | _ => false

/-- The server's estimate normalization at story creation
(`app.js` line 143): the destructuring default `estimate = 1` handles an
absent field, then `Number.isFinite(Number(e)) ? Math.max(1, Number(e)) : 1`. -/
def normalizeEstimate (e : Option JSNum) : ℚ :=
  match e.getD (.num 1) with
  | .num q => max 1 q
  | _ => 1

/-- The positive-finite reading of an estimate input used by the spec:
`some q` when the input is a finite number `q > 0`, `none` otherwise
(absent, non-finite, or `≤ 0`). -/
def posFiniteVal : Option JSNum → Option ℚ
  | some (.num q) => if 0 < q then some q else none
  | _ => none

/-! ## Authorization helpers (client, App.vue) -/

/-- The client session object (`currentUser`): the login response `{id,
username}` persisted to localStorage, with a `role` field that is absent for
sessions created through the public login flow. -/
structure SessionUser where
  id : Nat
  role : Option Role
deriving DecidableEq, Repr

/-- `userRole = currentUser?.role || 'developer'` for a present user. -/
def userRole (u : SessionUser) : Role :=
  u.role.getD .developer

/-- A story as the client sees it (`mapStories` output): `ownerId` may be
NULL after the LEFT JOIN. -/
structure StoryView where
  id : Nat
  ownerId : Option Nat
  status : String
deriving DecidableEq, Repr

/-- `canEditStory` (App.vue): absent user is denied; a privileged role
(manager/admin) may edit anything; otherwise only the owner may edit. -/
def canEditStory (u : Option SessionUser) (s : StoryView) : Bool :=
  match u with
  | none => false
  | some u =>
      (userRole u = .manager || userRole u = .admin) || s.ownerId = some u.id

/-- `canDeleteStory` / `canArchiveStory` / `canViewAnalytics` (App.vue):
true iff the user is present and privileged. -/
def isPrivileged (u : Option SessionUser) : Bool :=
  match u with
  | none => false
  | some u => userRole u = .manager || userRole u = .admin

/-! ## Auth endpoints (POST /api/auth/register, POST /api/auth/login) -/

/-- The registration request body.  The Vue client also sends a `role` field
(`registerForm.role`); the server destructures only `username` and
`password`. -/
structure RegisterReq where
  username : String
  password : String
  role : Option Role
deriving DecidableEq, Repr

/-- The 201 response of registration: `{id, username}`. -/
structure RegisterResp where
  id : Nat
  username : String
deriving DecidableEq, Repr

/-- `bcrypt.hash` is an external collaborator; modelled as the identity
(nothing proved here depends on the hash). -/
def hashPassword (p : String) : String := p

/-- POST /api/auth/register: validates presence and password length, rejects
duplicate usernames, then runs
`INSERT INTO users (username, password_hash) VALUES (?, ?)` — the `role`
column is not in the insert list, so the row takes the schema default
`'developer'` (`ALTER TABLE users ADD COLUMN role ... DEFAULT 'developer'`
in `initSchema.js`). -/
def register (db : DB) (req : RegisterReq) : Except Err (DB × RegisterResp) :=
  if req.username = "" || req.password = "" then .error .badRequest
  else if req.password.length < 6 then .error .badRequest
  else if db.users.any (fun u => u.username == req.username) then .error .conflict
  else
    let u : User := ⟨db.nextUserId, req.username, hashPassword req.password, .developer⟩
    .ok ({ db with users := db.users ++ [u], nextUserId := db.nextUserId + 1 },
         ⟨u.id, u.username⟩)

/-- The login request body. -/
structure LoginReq where
  username : String
  password : String
deriving DecidableEq, Repr

/-- The 200 response of login: `{id, username}` — structurally there is no
role field. -/
structure LoginResp where
  id : Nat
  username : String
deriving DecidableEq, Repr

/-- POST /api/auth/login: `SELECT id, password_hash FROM users WHERE
username = ?`, compares the password with `bcrypt.compare` (modelled as
string equality against the stored hash), and answers `{id, username}`. -/
def login (db : DB) (req : LoginReq) : Except Err LoginResp :=
  if req.username = "" || req.password = "" then .error .badRequest
  else
    match db.users.find? (fun u => u.username == req.username) with
    | none => .error .unauthorized
    | some u =>
        if u.passwordHash == hashPassword req.password then .ok ⟨u.id, u.username⟩
        else .error .unauthorized

/-- The client session built from a login response (`currentUser`): it
carries only `id` and `username`, so its `role` field is absent. -/
def sessionOfLogin (r : LoginResp) : SessionUser :=
  ⟨r.id, none⟩

/-! ## Story endpoints (POST /api/stories, PATCH /api/stories/:id) -/

/-- The body of POST /api/stories after JSON parsing; `estimate` is kept as
the JS number it coerces to. -/
structure CreateBody where
  title : String
  description : String
  estimate : Option JSNum
  status : Option String
  ownerId : Option Nat
deriving DecidableEq, Repr

/-- The 201 response of story creation. -/
structure CreateResp where
  id : Nat
  title : String
  description : String
  estimate : ℚ
  status : String
deriving DecidableEq, Repr

/-- POST /api/stories: `!ownerId` (absent or 0, the JS-falsy cases) is 401,
empty title/description is 400, the estimate is normalized, `status`
defaults to `'backlog'`, and the row is inserted. -/
def createStory (now : Int) (db : DB) (b : CreateBody) : Except Err (DB × CreateResp) :=
  if b.ownerId.getD 0 = 0 then .error .unauthorized
  else if b.title = "" || b.description = "" then .error .badRequest
  else
    let st := b.status.getD "backlog"
    let est := normalizeEstimate b.estimate
    let s : Story := ⟨db.nextStoryId, b.title, b.description, est, st, b.ownerId, now⟩
    .ok ({ db with stories := db.stories ++ [s], nextStoryId := db.nextStoryId + 1 },
         ⟨s.id, b.title, b.description, est, st⟩)

/-- The body of PATCH /api/stories/:id.  The client's `updateStoryStatus`
sends `{status, userId}`, its `updateStoryEstimate` sends
`{estimate, userId}`; the server reads only `status`. -/
structure PatchBody where
  status : Option String
  estimate : Option JSNum
  userId : Option Nat
deriving DecidableEq, Repr

/-- The four-value status enum accepted by PATCH /api/stories/:id. -/
def validStatuses : List String := ["backlog", "ready", "in-progress", "done"]

/-- The 200 response of PATCH /api/stories/:id. -/
structure PatchResp where
  id : Nat
  status : String
deriving DecidableEq, Repr

/-- PATCH /api/stories/:id: rejects any `status` outside the enum (an absent
`status` field also fails the `includes` test) with 400, and otherwise runs
`UPDATE stories SET status = ? WHERE id = ?` unconditionally — the handler
reads no actor and consults no authorization policy, and it never touches
the estimate column. -/
def patchStory (db : DB) (id : Nat) (b : PatchBody) : Except Err (DB × PatchResp) :=
  match b.status with
  | some st =>
      if validStatuses.contains st then
        .ok ({ db with stories := db.stories.map fun s =>
                 if s.id = id then { s with status := st } else s },
             ⟨id, st⟩)
      else .error .badRequest
  | none => .error .badRequest

/-! ## Archival (POST /api/stories/:id/complete) -/

/-- The task list of a story as `mapStories` assembles it from the LEFT JOIN
rows: the tasks whose `story_id` matches, kept only when `row.task_id` is
truthy (id ≠ 0). -/
def storyTasks (db : DB) (id : Nat) : List TaskView :=
  (db.tasks.filter fun t => t.storyId == id && t.id != 0).map
    fun t => ⟨t.id, t.title, t.done, t.createdAt⟩

/-- `u.username AS story_owner` through the LEFT JOIN: NULL when the story
has no owner or no user row matches. -/
def joinedOwnerName (db : DB) (ownerId : Option Nat) : Option String :=
  match ownerId with
  | none => none
  | some oid => (db.users.find? (fun u => u.id == oid)).map (fun u => u.username)

/-- The JS `x || null` on a nullable string: the empty string is falsy. -/
def jsStrOrNull : Option String → Option String
  | some s => if s = "" then none else some s
  | none => none

/-- The JS `x || null` on a nullable id: 0 is falsy. -/
def jsNatOrNull : Option Nat → Option Nat
  | some n => if n = 0 then none else some n
  | none => none

/-- POST /api/stories/:id/complete: loads the story with its task list (404
when absent), inserts an `archived_stories` row that copies the story fields,
forces `status` to `'done'`, snapshots `owner_name` from the joined current
username, serializes the task list into `tasks_json`, stamps `completed_at`
with the current time, and then deletes the live story.  Answers
`{archivedId}`. -/
def completeStory (now : Int) (db : DB) (id : Nat) : Except Err (DB × Nat) :=
  match db.stories.find? (fun s => s.id == id) with
  | none => .error .notFound
  | some s =>
      let row : ARow :=
        { id := db.nextArchiveId
          originalStoryId := s.id
          title := s.title
          description := s.description
          estimate := s.estimate
          status := "done"
          ownerId := jsNatOrNull s.ownerId
          ownerName := jsStrOrNull (joinedOwnerName db s.ownerId)
          tasksJson := serializeTasks (storyTasks db id)
          completedAt := now }
      .ok ({ db with
               archived := db.archived ++ [row]
               stories := db.stories.filter fun s => s.id != id
               nextArchiveId := db.nextArchiveId + 1 },
           db.nextArchiveId)

/-! ## Analytics (GET /api/analytics/archive) -/

/-- `24 * 60 * 60 * 1000`. -/
def DAY_MS : Int := 86400000

/-- A `from`/`to` query parameter: absent, present but unparseable
(`new Date(v)` is Invalid Date), or a parsed timestamp. -/
inductive DateParam where
  | absent
  | invalid
  | valid (t : Int)
deriving DecidableEq, Repr

/-- `parseDateParam` (app.js): `null` for an absent or unparseable value. -/
def parseDateParam : DateParam → Option Int
  | .valid t => some t
  | _ => none

/-- `toDate = parseDateParam(req.query.to) ?? now`. -/
def resolvedTo (now : Int) (qto : DateParam) : Int :=
  (parseDateParam qto).getD now

/-- `fromDate = parseDateParam(req.query.from) ?? new Date(toDate - 29*DAY_MS)`. -/
def resolvedFrom (now : Int) (qfrom qto : DateParam) : Int :=
  (parseDateParam qfrom).getD (resolvedTo now qto - 29 * DAY_MS)

/-- The resolved window after the swap: `if (fromDate > toDate) swap`. -/
def resolveWindow (now : Int) (qfrom qto : DateParam) : Int × Int :=
  let t := resolvedTo now qto
  let f := resolvedFrom now qfrom qto
  if t < f then (t, f) else (f, t)

/-- `new Date(d).setHours(0, 0, 0, 0)` on the local clock with fixed offset
`off` (local = utc + off): drop the local time-of-day. -/
def dayFloor (off t : Int) : Int := t - (t + off) % DAY_MS

/-- `new Date(d).setHours(23, 59, 59, 999)` on the local clock with fixed
offset `off`. -/
def dayCeil (off t : Int) : Int := dayFloor off t + (DAY_MS - 1)

/-- The effective query window `[fromBoundary, toBoundary]` used in the
`BETWEEN` fetch, both boundaries computed with the same local offset. -/
def effectiveWindow (off now : Int) (qfrom qto : DateParam) : Int × Int :=
  let w := resolveWindow now qfrom qto
  (dayFloor off w.1, dayCeil off w.2)

/-- The value of `story.tasks` after deserialization: a task list, the
nullish value produced when `JSON.parse` yields `null` (benign: every later
`story.tasks?.…` access short-circuits to `undefined ?? 0`), or a non-null
non-array JSON value (which later makes `tasks.filter` throw). -/
inductive TasksVal where
  | tlist (ts : List TaskView)
  | tnull
  | tother
deriving DecidableEq, Repr

/-- The per-row deserialization of `tasks_json`: an array value is used as
is, a truthy string is `JSON.parse`d with a parse failure degrading to `[]`
(and a parse to `null` kept as the nullish value), and a falsy cell gives
`[]`. -/
def deserializeTasks : RawSnapshot → TasksVal
  | .rawArr ts => .tlist ts
  | .rawStr (.parsedArr ts) => .tlist ts
  | .rawStr .parsedNull => .tnull
  | .rawStr .parsedNonArray => .tother
  | .rawStr .parseFail => .tlist []
  | .rawNull => .tlist []

/-- An archived story as the analytics endpoint maps it for the response. -/
structure AStoryView where
  id : Nat
  originalId : Nat
  title : String
  description : String
  estimate : ℚ
  status : String
  ownerId : Option Nat
  ownerName : Option String
  tasks : TasksVal
  completedAt : Int
deriving DecidableEq, Repr

/-- `rows.map((row) => ...)` of the analytics handler. -/
def deserializeRow (r : ARow) : AStoryView :=
  { id := r.id
    originalId := r.originalStoryId
    title := r.title
    description := r.description
    estimate := r.estimate
    status := r.status
    ownerId := r.ownerId
    ownerName := r.ownerName
    tasks := deserializeTasks r.tasksJson
    completedAt := r.completedAt }

/-- The summary object of the analytics response. -/
structure Summary where
  totalStories : Nat
  totalPoints : ℚ
  totalTasks : Nat
  doneTasks : Nat
  ownerCount : Nat
deriving DecidableEq, Repr

/-- The reduce accumulator, with the `owners` Set. -/
structure SummaryAcc where
  totalStories : Nat
  totalPoints : ℚ
  totalTasks : Nat
  doneTasks : Nat
  owners : Finset String
deriving DecidableEq

/-- `story.tasks?.length ?? 0`: a nullish `tasks` short-circuits the chain
and a non-array value has an `undefined` `.length`; both become 0 via
`?? 0`. -/
def tasksLen : TasksVal → Nat
  | .tlist ts => ts.length
  | .tnull => 0
  | .tother => 0

/-- `story.tasks?.filter((task) => task.done).length ?? 0`: a nullish
`tasks` short-circuits the whole chain to `undefined ?? 0` = 0; on a
non-null non-array value, `.filter` is `undefined` and calling it throws a
TypeError, which the handler's catch turns into a 500. -/
def doneCount : TasksVal → Except String Nat
  | .tlist ts => .ok (ts.filter (fun t => t.done)).length
  | .tnull => .ok 0
  | .tother => .error "TypeError: story.tasks.filter is not a function"

/-- One step of the summary reduce; `if (story.ownerName)` skips both NULL
and the (falsy) empty string. -/
def summaryStep (acc : SummaryAcc) (st : AStoryView) : Except String SummaryAcc := do
  let dc ← doneCount st.tasks
  .ok { totalStories := acc.totalStories + 1
        totalPoints := acc.totalPoints + st.estimate
        totalTasks := acc.totalTasks + tasksLen st.tasks
        doneTasks := acc.doneTasks + dc
        owners :=
          match st.ownerName with
          | some s => if s = "" then acc.owners else insert s acc.owners
          | none => acc.owners }

/-- The summary fold over the deserialized stories. -/
def summaryFold (stories : List AStoryView) : Except String Summary := do
  let acc ← stories.foldlM summaryStep ⟨0, 0, 0, 0, ∅⟩
  .ok ⟨acc.totalStories, acc.totalPoints, acc.totalTasks, acc.doneTasks, acc.owners.card⟩

/-- `story.tasks?.filter((task) => task.done).length ?? 0` in the
non-throwing case (used to state what the fold computes). -/
def doneLen : TasksVal → Nat
  | .tlist ts => (ts.filter (fun t => t.done)).length
  | .tnull => 0
  | .tother => 0

/-- The pure content of one `summaryStep` on a non-throwing story. -/
def pureStep (acc : SummaryAcc) (st : AStoryView) : SummaryAcc :=
  { totalStories := acc.totalStories + 1
    totalPoints := acc.totalPoints + st.estimate
    totalTasks := acc.totalTasks + tasksLen st.tasks
    doneTasks := acc.doneTasks + doneLen st.tasks
    owners :=
      match st.ownerName with
      | some s => if s = "" then acc.owners else insert s acc.owners
      | none => acc.owners }

/-- A velocity bucket `{date, stories, points}`.  The ISO date string
`toISOString().slice(0, 10)` is represented by the UTC day index (ISO-date
lexical order coincides with the order of the day index). -/
structure VEntry where
  date : Int
  stories : Nat
  points : ℚ
deriving DecidableEq, Repr

/-- The day key the velocity grouping uses:
`new Date(completedAt).toISOString().slice(0, 10)` — the **UTC** calendar
day of the timestamp. -/
def dayKeyUTC (t : Int) : Int := t / DAY_MS

/-- `Map.set` with get-or-default: add one story with `p` points to the
bucket keyed `d`, creating the bucket at the end in insertion order. -/
def bump : List VEntry → Int → ℚ → List VEntry
  | [], d, p => [⟨d, 1, p⟩]
  | e :: rest, d, p =>
      if e.date = d then
        { e with stories := e.stories + 1, points := e.points + p } :: rest
      else e :: bump rest d p

/-- The velocity Map contents in insertion order. -/
def velocityRaw (stories : List AStoryView) : List VEntry :=
  stories.foldl (fun m st => bump m (dayKeyUTC st.completedAt) st.estimate) []

/-- The comparator `(a, b) => a.date.localeCompare(b.date)`. -/
def vle (a b : VEntry) : Prop := a.date ≤ b.date

instance : DecidableRel vle := fun a b => inferInstanceAs (Decidable (a.date ≤ b.date))

instance : IsTotal VEntry vle := ⟨fun a b => le_total a.date b.date⟩

instance : IsTrans VEntry vle := ⟨fun _ _ _ h h' => le_trans h h'⟩

/-- `Array.from(velocityMap.values()).sort(...)`: the buckets sorted
ascending by date (bucket dates are pairwise distinct, so any sort by date
yields the same list). -/
def buildVelocity (stories : List AStoryView) : List VEntry :=
  List.insertionSort vle (velocityRaw stories)

/-- The total of the `stories` fields of the buckets keyed `d` (for a
bucket list with pairwise-distinct dates this is the one bucket's count, and
0 when no bucket has that key). -/
def entStories (m : List VEntry) (d : Int) : Nat :=
  ((m.filter (fun e => e.date == d)).map (fun e => e.stories)).sum

/-- The total of the `points` fields of the buckets keyed `d`. -/
def entPoints (m : List VEntry) (d : Int) : ℚ :=
  ((m.filter (fun e => e.date == d)).map (fun e => e.points)).sum

/-- How many stories of the list fall on UTC calendar day `d`. -/
def bucketStories (stories : List AStoryView) (d : Int) : Nat :=
  (stories.filter (fun st => dayKeyUTC st.completedAt == d)).length

/-- The estimate total of the stories of the list on UTC calendar day `d`. -/
def bucketPoints (stories : List AStoryView) (d : Int) : ℚ :=
  ((stories.filter (fun st => dayKeyUTC st.completedAt == d)).map
    (fun st => st.estimate)).sum

/-- `WHERE completed_at BETWEEN ? AND ?` over the archive (the `ORDER BY
completed_at DESC` affects only the presentation order of the detail rows;
no claim below concerns that order, and summary and velocity are insensitive
to it). -/
def fetchArchived (db : DB) (a b : Int) : List ARow :=
  db.archived.filter fun r => a ≤ r.completedAt && r.completedAt ≤ b

/-- The analytics response body. -/
structure AnalyticsResp where
  rangeFrom : Int
  rangeTo : Int
  summary : Summary
  velocity : List VEntry
  stories : List AStoryView
deriving DecidableEq, Repr

/-- The deserialized archive rows of the effective window — the `stories`
value of the analytics handler. -/
def analyticsStories (off now : Int) (db : DB) (qfrom qto : DateParam) :
    List AStoryView :=
  (fetchArchived db (effectiveWindow off now qfrom qto).1
    (effectiveWindow off now qfrom qto).2).map deserializeRow

/-- GET /api/analytics/archive: resolve and widen the window, fetch the rows
in range, deserialize, fold the summary (a thrown TypeError becomes the
500 branch, i.e. `.error`), and build the velocity series. -/
def analyticsArchive (off now : Int) (db : DB) (qfrom qto : DateParam) :
    Except String AnalyticsResp :=
  match summaryFold (analyticsStories off now db qfrom qto) with
  | .error e => .error e
  | .ok summary =>
      .ok ⟨(effectiveWindow off now qfrom qto).1, (effectiveWindow off now qfrom qto).2,
           summary, buildVelocity (analyticsStories off now db qfrom qto),
           analyticsStories off now db qfrom qto⟩

/-- The spec's words for the ownerCount component of the summary: "size of
the distinct set of non-null ownerName values" (to be compared with the
code's fold, which also skips the falsy empty string). -/
def ownerCountSpec (stories : List AStoryView) : Nat :=
  ((stories.filterMap (fun st => st.ownerName)).dedup).length

/-- The spec's words for a "calendar day derived from completedAt using the
same time-zone policy as the window-boundary computation": the local-clock
day index under offset `off`, the same policy `dayFloor`/`dayCeil` use (to
be compared with the code's UTC `dayKeyUTC`). -/
def boundaryPolicyDayKey (off t : Int) : Int := (t + off) / DAY_MS

/-! ## Concrete fixtures used by witnesses and counterexamples -/

/-- Example user: bob, id 2, an unprivileged developer. -/
def exUser : User := ⟨2, "bob", "pw1234", .developer⟩

/-- Example live story: id 1, owned by bob, currently in status `done`. -/
def exStory : Story := ⟨1, "A", "first story", 3, "done", some 2, 0⟩

/-- Example store: bob, his story 1 with two tasks (one done), empty
archive. -/
def exDB : DB :=
  { users := [exUser]
    stories := [exStory]
    tasks := [⟨1, 1, "t1", true, 10⟩, ⟨2, 1, "t2", false, 20⟩]
    archived := []
    nextUserId := 3
    nextStoryId := 2
    nextTaskId := 3
    nextArchiveId := 1 }

/-- The number of archive rows that point back at a given original story. -/
def countArchived (db : DB) (id : Nat) : Nat :=
  (db.archived.filter fun r => r.originalStoryId == id).length

/-- Archived row with a well-formed serialized snapshot (two tasks, one
done), completed at t = 1000. -/
def exARow1 : ARow :=
  ⟨1, 10, "A", "d", 3, "done", some 2, some "bob",
   serializeTasks [⟨1, "t", true, 0⟩, ⟨2, "u", false, 0⟩], 1000⟩

/-- Archived row whose snapshot string does not parse as JSON. -/
def exARow2 : ARow :=
  ⟨2, 11, "B", "d", 2, "done", none, some "bob", .rawStr .parseFail, 2000⟩

/-- Archived row far outside the example query window. -/
def exARowOut : ARow :=
  ⟨3, 12, "C", "d", 5, "done", none, some "eve", .rawNull, 999999999⟩

/-- Store holding the three example archive rows. -/
def exADB : DB :=
  { users := [], stories := [], tasks := []
    archived := [exARow1, exARow2, exARowOut]
    nextUserId := 1, nextStoryId := 1, nextTaskId := 1, nextArchiveId := 4 }

/-- Archived row whose snapshotted owner name is the empty string. -/
def exARowEmptyOwner : ARow :=
  ⟨7, 13, "E", "d", 2, "done", none, some "", .rawNull, 0⟩

/-- Archived row whose snapshot string parses as JSON to `null`
(`tasks_json = 'null'`): the handler counts it with zero tasks and answers
200. -/
def exARowNullJson : ARow :=
  ⟨4, 15, "G", "d", 1, "done", none, some "bob", .rawStr .parsedNull, 3000⟩

/-- Store whose window `[0, 10000]` holds a well-formed, a parse-fail and a
parse-to-null row, with one more row outside the window. -/
def exADB2 : DB :=
  { users := [], stories := [], tasks := []
    archived := [exARow1, exARow2, exARowNullJson, exARowOut]
    nextUserId := 1, nextStoryId := 1, nextTaskId := 1, nextArchiveId := 5 }

/-- A deserialized archived story completed at 23:30 UTC of epoch day 0
(01:30 of day 1 on a UTC+1 local clock). -/
def stExA : AStoryView :=
  ⟨1, 10, "A", "d", 3, "done", none, none, .tlist [], 84600000⟩

/-! ## Claim theorems (first group) -/

/-- **C2.** For every estimate input `e` at story creation, the stored
estimate is `max 1 e` when `e` is a positive finite number and `1` otherwise
(absent, non-finite, or `≤ 0`); hence the stored estimate is always `≥ 1`,
and a successful POST /api/stories stores and answers exactly the normalized
value. -/
theorem estimate_normalization_spec (e : Option JSNum) :
    (∀ q : ℚ, posFiniteVal e = some q → normalizeEstimate e = max 1 q) ∧
    (posFiniteVal e = none → normalizeEstimate e = 1) ∧
    1 ≤ normalizeEstimate e ∧
    (∀ (now : Int) (db : DB) (b : CreateBody) (db' : DB) (resp : CreateResp),
      b.estimate = e → createStory now db b = .ok (db', resp) →
      resp.estimate = normalizeEstimate e ∧
      ∃ s : Story, db'.stories = db.stories ++ [s] ∧
        s.estimate = normalizeEstimate e) := by
  refine ⟨?_, ?_, ?_, ?_⟩
  · intro q hq
    match e with
    | none => simp [posFiniteVal] at hq
    | some .nan => simp [posFiniteVal] at hq
    | some .posInf => simp [posFiniteVal] at hq
    | some .negInf => simp [posFiniteVal] at hq
    | some (.num r) =>
        by_cases hr : 0 < r
        · simp [posFiniteVal, hr] at hq
          simp [normalizeEstimate, hq]
        · simp [posFiniteVal, hr] at hq
  · intro hq
    match e with
    | none => simp [normalizeEstimate]
    | some .nan => simp [normalizeEstimate]
    | some .posInf => simp [normalizeEstimate]
    | some .negInf => simp [normalizeEstimate]
    | some (.num r) =>
        by_cases hr : 0 < r
        · simp [posFiniteVal, hr] at hq
        · simp only [normalizeEstimate, Option.getD]
          have : r ≤ 1 := le_trans (not_lt.mp hr) (by norm_num)
          simp [max_eq_left this]
  · match e with
    | none => simp [normalizeEstimate]
    | some .nan => simp [normalizeEstimate]
    | some .posInf => simp [normalizeEstimate]
    | some .negInf => simp [normalizeEstimate]
    | some (.num r) => simp [normalizeEstimate, le_max_left]
  · intro now db b db' resp hbe h
    unfold createStory at h
    split_ifs at h with h1 h2
    simp only [Except.ok.injEq, Prod.mk.injEq] at h
    obtain ⟨hdb, hresp⟩ := h
    subst hdb
    subst hresp
    subst hbe
    exact ⟨rfl,
      ⟨⟨db.nextStoryId, b.title, b.description, normalizeEstimate b.estimate,
        b.status.getD "backlog", b.ownerId, now⟩, rfl, rfl⟩⟩

theorem estimate_normalization_spec_witness :
    normalizeEstimate (some (.num 3)) = max 1 3 ∧
    normalizeEstimate (some (.num (-2))) = 1 ∧
    1 ≤ normalizeEstimate none ∧
    (⟨2, "T", "D", 1, "backlog"⟩ : CreateResp).estimate =
      normalizeEstimate (some (.num 0)) ∧
    ∃ s : Story,
      ({ exDB with
          stories := exDB.stories ++ [⟨2, "T", "D", 1, "backlog", some 2, 0⟩]
          nextStoryId := 3 } : DB).stories = exDB.stories ++ [s] ∧
      s.estimate = normalizeEstimate (some (.num 0)) :=
  ⟨(estimate_normalization_spec (some (.num 3))).1 3 (by decide),
   (estimate_normalization_spec (some (.num (-2)))).2.1 (by decide),
   (estimate_normalization_spec none).2.2.1,
   ((estimate_normalization_spec (some (.num 0))).2.2.2 0 exDB
      ⟨"T", "D", some (.num 0), none, some 2⟩
      { exDB with
        stories := exDB.stories ++ [⟨2, "T", "D", 1, "backlog", some 2, 0⟩]
        nextStoryId := 3 }
      ⟨2, "T", "D", 1, "backlog"⟩ rfl rfl).1,
   ((estimate_normalization_spec (some (.num 0))).2.2.2 0 exDB
      ⟨"T", "D", some (.num 0), none, some 2⟩
      { exDB with
        stories := exDB.stories ++ [⟨2, "T", "D", 1, "backlog", some 2, 0⟩]
        nextStoryId := 3 }
      ⟨2, "T", "D", 1, "backlog"⟩ rfl rfl).2⟩

/-- **C3.** `canEditStory u s` is true iff `u`'s role is manager or admin or
`u` owns `s`, over the whole role × ownership matrix; an absent user is
always denied. -/
theorem canEditStory_spec :
    (∀ (i : Nat) (r : Role) (s : StoryView),
        canEditStory (some ⟨i, some r⟩) s = true ↔
          (r = .manager ∨ r = .admin ∨ s.ownerId = some i)) ∧
    (∀ s : StoryView, canEditStory none s = false) := by
  constructor
  · intro i r s
    cases r with
    | developer => simp [canEditStory, userRole, Option.getD]
    | manager => simp [canEditStory, userRole, Option.getD]
    | admin => simp [canEditStory, userRole, Option.getD]
  · intro s
    rfl

theorem canEditStory_spec_witness :
    canEditStory (some ⟨7, some .developer⟩) ⟨1, some 7, "backlog"⟩ = true ∧
    canEditStory none ⟨1, some 7, "backlog"⟩ = false :=
  ⟨(canEditStory_spec.1 7 .developer ⟨1, some 7, "backlog"⟩).mpr
      (Or.inr (Or.inr rfl)),
   canEditStory_spec.2 ⟨1, some 7, "backlog"⟩⟩

/-- **C10.** Registration inserts only username and password hash, so the new
user row takes the `role` column's schema default `'developer'` regardless of
the role the caller supplied; the login response carries only id and
username, so a client session built from it has no role field and an
effective role of `'developer'` — no session established through the public
interface carries a privileged role. -/
theorem public_sessions_unprivileged :
    (∀ (db : DB) (req : RegisterReq) (db' : DB) (resp : RegisterResp),
        register db req = .ok (db', resp) →
          ∃ u : User, db'.users = db.users ++ [u] ∧ u.role = .developer ∧
            resp = ⟨u.id, u.username⟩) ∧
    (∀ (db : DB) (u p : String) (r₁ r₂ : Option Role),
        register db ⟨u, p, r₁⟩ = register db ⟨u, p, r₂⟩) ∧
    (∀ resp : LoginResp,
        (sessionOfLogin resp).role = none ∧
        userRole (sessionOfLogin resp) = .developer ∧
        isPrivileged (some (sessionOfLogin resp)) = false) := by
  refine ⟨?_, ?_, ?_⟩
  · intro db req db' resp h
    unfold register at h
    split_ifs at h with h1 h2 h3
    simp only [Except.ok.injEq, Prod.mk.injEq] at h
    obtain ⟨hdb, hresp⟩ := h
    subst hdb
    subst hresp
    exact ⟨⟨db.nextUserId, req.username, hashPassword req.password, .developer⟩,
      rfl, rfl, rfl⟩
  · intro db u p r₁ r₂
    rfl
  · intro resp
    exact ⟨rfl, rfl, rfl⟩

theorem public_sessions_unprivileged_witness :
    (∃ u : User,
      (DB.users ⟨[⟨1, "alice", "secret1", .developer⟩], [], [], [], 2, 1, 1, 1⟩) =
        (DB.users ⟨[], [], [], [], 1, 1, 1, 1⟩) ++ [u] ∧
      u.role = .developer ∧ (⟨1, "alice"⟩ : RegisterResp) = ⟨u.id, u.username⟩) ∧
    userRole (sessionOfLogin ⟨1, "alice"⟩) = .developer :=
  ⟨public_sessions_unprivileged.1 ⟨[], [], [], [], 1, 1, 1, 1⟩
      ⟨"alice", "secret1", some .admin⟩
      ⟨[⟨1, "alice", "secret1", .developer⟩], [], [], [], 2, 1, 1, 1⟩
      ⟨1, "alice"⟩ rfl,
   (public_sessions_unprivileged.2.2 ⟨1, "alice"⟩).2.1⟩

/-- **C4** (code bug): the PATCH /api/stories/:id handler does reject any
status outside the four-value enum with a 400 validation error, and an
accepted transition is unconditional (backwards moves included) — but it
consults no authorization policy at all: with story 1 owned by user 2, a
request on behalf of developer 3, which `canEditStory` denies, still
succeeds and moves the story backwards from `done` to `backlog`. -/
theorem setStatus_skips_authorization :
    canEditStory (some ⟨3, some .developer⟩) ⟨1, some 2, "done"⟩ = false ∧
    patchStory exDB 1 ⟨some "backlog", none, some 3⟩ =
      .ok ({ exDB with stories := [{ exStory with status := "backlog" }] },
           ⟨1, "backlog"⟩) ∧
    patchStory exDB 1 ⟨some "bogus", none, some 3⟩ = .error .badRequest :=
  ⟨rfl, rfl, rfl⟩

/-- **C5** (code bug): the client's `updateStoryEstimate` sends
`{estimate, userId}` (no `status`) to PATCH /api/stories/:id, but that
handler reads only the `status` field: every estimate update is rejected
with 400 (`invalid status`), and no PATCH request — accepted or not — ever
changes a stored estimate. -/
theorem setEstimate_is_broken :
    patchStory exDB 1 ⟨none, some (.num 5), some 2⟩ = .error .badRequest ∧
    (patchStory exDB 1 ⟨some "ready", some (.num 5), some 2⟩ =
      .ok ({ exDB with stories := [{ exStory with status := "ready" }] },
           ⟨1, "ready"⟩)) ∧
    (∀ (db : DB) (id : Nat) (b : PatchBody) (out : DB × PatchResp),
        patchStory db id b = .ok out →
          out.1.stories.map Story.estimate = db.stories.map Story.estimate) := by
  refine ⟨rfl, rfl, ?_⟩
  intro db id b out h
  unfold patchStory at h
  rcases hb : b.status with _ | st
  · rw [hb] at h
    simp at h
  · rw [hb] at h
    simp only [] at h
    split_ifs at h with hv
    simp only [Except.ok.injEq] at h
    rw [← h]
    simp only [List.map_map]
    refine List.map_congr_left ?_
    intro s _
    by_cases hs : s.id = id <;> simp [hs]

/-- **C1.** A successful archive of a live story builds an archive row that
copies title, description, estimate, ownerId (archival stores the JS-falsy 0
as NULL, which no real story id hits) and the owner's current (non-empty)
username, forces status to `done` whatever the story's status was, and
carries the serialized task list as its snapshot; afterwards the live story
list never contains that id, and the count of archive rows with that
originalStoryId grows by exactly one per successful call; a missing story id
yields NotFound and archives nothing. -/
theorem archive_transition_spec (now : Int) (db : DB) (id : Nat) :
    (∀ s : Story, db.stories.find? (fun s' => s'.id == id) = some s →
      ∃ (db' : DB) (aid : Nat) (row : ARow),
        completeStory now db id = .ok (db', aid) ∧
        db'.archived = db.archived ++ [row] ∧
        row.originalStoryId = id ∧
        row.title = s.title ∧
        row.description = s.description ∧
        row.estimate = s.estimate ∧
        row.status = "done" ∧
        row.tasksJson = serializeTasks (storyTasks db id) ∧
        row.completedAt = now ∧
        (s.ownerId ≠ some 0 → row.ownerId = s.ownerId) ∧
        (∀ (oid : Nat) (u : User), s.ownerId = some oid →
          db.users.find? (fun u' => u'.id == oid) = some u →
          u.username ≠ "" → row.ownerName = some u.username) ∧
        (∀ s' ∈ db'.stories, s'.id ≠ id) ∧
        countArchived db' id = countArchived db id + 1) ∧
    (db.stories.find? (fun s' => s'.id == id) = none →
      completeStory now db id = .error .notFound) := by
  constructor
  · intro s hs
    have hsid : s.id = id := by simpa using List.find?_some hs
    unfold completeStory
    rw [hs]
    refine ⟨_, _, _, rfl, rfl, hsid, rfl, rfl, rfl, rfl, rfl, rfl, ?_, ?_, ?_, ?_⟩
    · intro h0
      rcases hso : s.ownerId with _ | n
      · simp [jsNatOrNull]
      · rw [hso] at h0
        have hn : n ≠ 0 := by intro hn0; exact h0 (by rw [hn0])
        simp [jsNatOrNull, hn]
    · intro oid u hoid hu hne
      simp only [jsStrOrNull, joinedOwnerName, hoid, hu, Option.map_some]
      simp [hne]
    · intro s' hs'
      have := List.of_mem_filter hs'
      simpa using this
    · simp only [countArchived, List.filter_append, List.length_append]
      have : (List.filter (fun r => r.originalStoryId == id)
          [({ id := db.nextArchiveId, originalStoryId := s.id, title := s.title,
              description := s.description, estimate := s.estimate, status := "done",
              ownerId := jsNatOrNull s.ownerId,
              ownerName := jsStrOrNull (joinedOwnerName db s.ownerId),
              tasksJson := serializeTasks (storyTasks db id),
              completedAt := now } : ARow)]).length = 1 := by
        simp [List.filter, hsid]
      rw [this]
  · intro hnone
    unfold completeStory
    rw [hnone]

theorem archive_transition_spec_witness :
    ∃ (db' : DB) (aid : Nat) (row : ARow),
      completeStory 100 exDB 1 = .ok (db', aid) ∧
      db'.archived = exDB.archived ++ [row] ∧
      row.originalStoryId = 1 ∧
      row.title = exStory.title ∧
      row.description = exStory.description ∧
      row.estimate = exStory.estimate ∧
      row.status = "done" ∧
      row.tasksJson = serializeTasks (storyTasks exDB 1) ∧
      row.completedAt = 100 ∧
      (exStory.ownerId ≠ some 0 → row.ownerId = exStory.ownerId) ∧
      (∀ (oid : Nat) (u : User), exStory.ownerId = some oid →
        exDB.users.find? (fun u' => u'.id == oid) = some u →
        u.username ≠ "" → row.ownerName = some u.username) ∧
      (∀ s' ∈ db'.stories, s'.id ≠ 1) ∧
      countArchived db' 1 = countArchived exDB 1 + 1 :=
  (archive_transition_spec 100 exDB 1).1 exStory rfl

/-! ## Helper lemmas for the window arithmetic -/

theorem emod_day_nonneg (a : Int) : 0 ≤ a % DAY_MS :=
  Int.emod_nonneg a (by norm_num [DAY_MS])

theorem emod_day_lt (a : Int) : a % DAY_MS < DAY_MS :=
  Int.emod_lt_of_pos a (by norm_num [DAY_MS])

theorem dayFloor_le (off t : Int) : dayFloor off t ≤ t := by
  have h1 := emod_day_nonneg (t + off)
  unfold dayFloor
  omega

theorem sub_dayFloor_lt (off t : Int) : t - dayFloor off t < DAY_MS := by
  have h2 := emod_day_lt (t + off)
  unfold dayFloor
  omega

theorem le_dayCeil (off t : Int) : t ≤ dayCeil off t := by
  have h2 := emod_day_lt (t + off)
  unfold dayCeil dayFloor
  omega

theorem dayCeil_sub_lt (off t : Int) : dayCeil off t - t < DAY_MS := by
  have h1 := emod_day_nonneg (t + off)
  unfold dayCeil dayFloor
  omega

theorem dayFloor_emod (off t : Int) : (dayFloor off t + off) % DAY_MS = 0 := by
  have h : dayFloor off t + off = DAY_MS * ((t + off) / DAY_MS) := by
    unfold dayFloor
    have := Int.ediv_add_emod (t + off) DAY_MS
    omega
  rw [h]
  exact Int.mul_emod_right _ _

theorem dayCeil_emod (off t : Int) : (dayCeil off t + off) % DAY_MS = DAY_MS - 1 := by
  have h : dayCeil off t + off = (DAY_MS - 1) + DAY_MS * ((t + off) / DAY_MS) := by
    unfold dayCeil dayFloor
    have := Int.ediv_add_emod (t + off) DAY_MS
    omega
  rw [h, Int.add_mul_emod_self_left]
  exact Int.emod_eq_of_lt (by norm_num [DAY_MS]) (by norm_num [DAY_MS])

theorem resolveWindow_le (now : Int) (qfrom qto : DateParam) :
    (resolveWindow now qfrom qto).1 ≤ (resolveWindow now qfrom qto).2 := by
  simp only [resolveWindow]
  split_ifs with h
  · simpa using le_of_lt h
  · simpa using not_lt.mp h

/-- **C6.** The analytics query window: `to` defaults to now when absent,
`from` defaults to `to − 29` days when absent, the two are swapped when
`from > to` (so the resolved window always has `from ≤ to`), and the window
is then widened to calendar-day boundaries computed with the one local-clock
offset `off`: the effective `from` is the local midnight at or before the
resolved `from` (local time-of-day 0), the effective `to` is the last
millisecond of the resolved `to`'s local day (local time-of-day
`DAY_MS − 1`), and the effective window still satisfies `from ≤ to`. -/
theorem analytics_window_spec (off now : Int) (qfrom qto : DateParam) :
    (qto = .absent → resolvedTo now qto = now) ∧
    (qfrom = .absent → resolvedFrom now qfrom qto = resolvedTo now qto - 29 * DAY_MS) ∧
    (resolvedTo now qto < resolvedFrom now qfrom qto →
      resolveWindow now qfrom qto = (resolvedTo now qto, resolvedFrom now qfrom qto)) ∧
    (resolveWindow now qfrom qto).1 ≤ (resolveWindow now qfrom qto).2 ∧
    (effectiveWindow off now qfrom qto).1 ≤ (resolveWindow now qfrom qto).1 ∧
    (resolveWindow now qfrom qto).1 - (effectiveWindow off now qfrom qto).1 < DAY_MS ∧
    (resolveWindow now qfrom qto).2 ≤ (effectiveWindow off now qfrom qto).2 ∧
    (effectiveWindow off now qfrom qto).2 - (resolveWindow now qfrom qto).2 < DAY_MS ∧
    ((effectiveWindow off now qfrom qto).1 + off) % DAY_MS = 0 ∧
    ((effectiveWindow off now qfrom qto).2 + off) % DAY_MS = DAY_MS - 1 ∧
    (effectiveWindow off now qfrom qto).1 ≤ (effectiveWindow off now qfrom qto).2 := by
  refine ⟨?_, ?_, ?_, resolveWindow_le now qfrom qto, ?_, ?_, ?_, ?_, ?_, ?_, ?_⟩
  · intro h; subst h; rfl
  · intro h; subst h; rfl
  · intro h
    simp only [resolveWindow]
    rw [if_pos h]
  · exact dayFloor_le off _
  · exact sub_dayFloor_lt off _
  · exact le_dayCeil off _
  · exact dayCeil_sub_lt off _
  · exact dayFloor_emod off _
  · exact dayCeil_emod off _
  · calc (effectiveWindow off now qfrom qto).1
        ≤ (resolveWindow now qfrom qto).1 := dayFloor_le off _
      _ ≤ (resolveWindow now qfrom qto).2 := resolveWindow_le now qfrom qto
      _ ≤ (effectiveWindow off now qfrom qto).2 := le_dayCeil off _

theorem analytics_window_spec_witness :
    resolveWindow 0 (.valid 500000) (.valid 200000) = (200000, 500000) := by
  have h := (analytics_window_spec 3600000 0 (.valid 500000) (.valid 200000)).2.2.1
  simpa [resolvedTo, resolvedFrom, parseDateParam] using
    h (by norm_num [resolvedTo, resolvedFrom, parseDateParam, DAY_MS])

/-! ## Helper lemmas for the analytics fold -/

theorem deserializeTasks_eq_tother (x : RawSnapshot) :
    deserializeTasks x = .tother ↔ x = .rawStr .parsedNonArray := by
  cases x with
  | rawArr ts => simp [deserializeTasks]
  | rawNull => simp [deserializeTasks]
  | rawStr o => cases o <;> simp [deserializeTasks]

theorem summaryStep_ok (acc : SummaryAcc) (st : AStoryView)
    (h : st.tasks ≠ .tother) :
    summaryStep acc st = .ok (pureStep acc st) := by
  rcases hts : st.tasks with ts | _ | _
  · simp [summaryStep, pureStep, doneCount, doneLen, hts, bind, Except.bind]
  · simp [summaryStep, pureStep, doneCount, doneLen, hts, bind, Except.bind]
  · exact absurd hts h

theorem summaryFold_go (stories : List AStoryView) (acc : SummaryAcc)
    (h : ∀ st ∈ stories, st.tasks ≠ .tother) :
    stories.foldlM summaryStep acc = .ok
      { totalStories := acc.totalStories + stories.length
        totalPoints := acc.totalPoints + (stories.map (fun st => st.estimate)).sum
        totalTasks := acc.totalTasks + (stories.map (fun st => tasksLen st.tasks)).sum
        doneTasks := acc.doneTasks + (stories.map (fun st => doneLen st.tasks)).sum
        owners := acc.owners ∪
          ((stories.filterMap (fun st => st.ownerName)).filter (fun s => s ≠ "")).toFinset } := by
  induction stories generalizing acc with
  | nil => simp [pure, Except.pure]
  | cons st rest ih =>
      have hst : st.tasks ≠ .tother := h st (List.mem_cons_self st rest)
      have hrest : ∀ st' ∈ rest, st'.tasks ≠ .tother :=
        fun st' hm => h st' (List.mem_cons_of_mem st hm)
      rw [List.foldlM_cons, summaryStep_ok acc st hst]
      simp only [bind, Except.bind]
      rw [ih _ hrest]
      simp only [Except.ok.injEq, SummaryAcc.mk.injEq, pureStep]
      refine ⟨by simp; omega, by simp; ring, by simp; omega, by simp; omega, ?_⟩
      rcases hon : st.ownerName with _ | s
      · simp [List.filterMap_cons, hon]
      · by_cases hse : s = ""
        · subst hse
          simp [List.filterMap_cons, hon]
        · simp [List.filterMap_cons, hon, hse, Finset.insert_union, Finset.union_insert]

theorem summaryFold_spec (stories : List AStoryView)
    (h : ∀ st ∈ stories, st.tasks ≠ .tother) :
    summaryFold stories = .ok
      { totalStories := stories.length
        totalPoints := (stories.map (fun st => st.estimate)).sum
        totalTasks := (stories.map (fun st => tasksLen st.tasks)).sum
        doneTasks := (stories.map (fun st => doneLen st.tasks)).sum
        ownerCount :=
          ((stories.filterMap (fun st => st.ownerName)).filter (fun s => s ≠ "")).toFinset.card } := by
  unfold summaryFold
  rw [summaryFold_go stories ⟨0, 0, 0, 0, ∅⟩ h]
  simp [bind, Except.bind]

theorem summaryFold_go_totalStories (stories : List AStoryView) :
    ∀ acc a : SummaryAcc,
      stories.foldlM summaryStep acc = .ok a →
      a.totalStories = acc.totalStories + stories.length := by
  induction stories with
  | nil =>
      intro acc a h
      simp [pure, Except.pure] at h
      subst h
      simp
  | cons st rest ih =>
      intro acc a h
      rw [List.foldlM_cons] at h
      by_cases hts : st.tasks = .tother
      · simp [summaryStep, hts, doneCount, bind, Except.bind] at h
      · rw [summaryStep_ok acc st hts] at h
        simp only [bind, Except.bind] at h
        have := ih (pureStep acc st) a h
        simp [pureStep] at this
        simp [this]
        omega

theorem summaryFold_totalStories (stories : List AStoryView) (s : Summary)
    (h : summaryFold stories = .ok s) : s.totalStories = stories.length := by
  unfold summaryFold at h
  rcases hacc : stories.foldlM summaryStep ⟨0, 0, 0, 0, ∅⟩ with e | acc
  · rw [hacc] at h
    simp [bind, Except.bind] at h
  · rw [hacc] at h
    simp [bind, Except.bind, pure, Except.pure] at h
    have := summaryFold_go_totalStories stories ⟨0, 0, 0, 0, ∅⟩ acc hacc
    rw [← h]
    simpa using this

/-! ## Helper lemmas for the velocity grouping -/

theorem bump_entStories (m : List VEntry) (d : Int) (p : ℚ) (d' : Int) :
    entStories (bump m d p) d' = entStories m d' + (if d = d' then 1 else 0) := by
  induction m with
  | nil =>
      by_cases h : d = d' <;> simp [bump, entStories, h]
  | cons e rest ih =>
      by_cases he : e.date = d
      · by_cases h : d = d'
        · subst h
          simp [bump, entStories, he]
          omega
        · simp [bump, entStories, he, h]
      · simp only [bump, if_neg he]
        by_cases hd : e.date = d'
        · simp [entStories, hd]
          have := ih
          simp [entStories] at this
          omega
        · simp [entStories, hd]
          have := ih
          simp [entStories] at this
          omega

theorem bump_entPoints (m : List VEntry) (d : Int) (p : ℚ) (d' : Int) :
    entPoints (bump m d p) d' = entPoints m d' + (if d = d' then p else 0) := by
  induction m with
  | nil =>
      by_cases h : d = d' <;> simp [bump, entPoints, h]
  | cons e rest ih =>
      by_cases he : e.date = d
      · by_cases h : d = d'
        · subst h
          simp [bump, entPoints, he]
          ring
        · simp [bump, entPoints, he, h]
      · simp only [bump, if_neg he]
        by_cases hd : e.date = d'
        · simp [entPoints, hd]
          have := ih
          simp [entPoints] at this
          rw [this]
          ring
        · simp [entPoints, hd]
          have := ih
          simp [entPoints] at this
          exact this

theorem velocityRaw_go_ent (xs : List AStoryView) :
    ∀ (m : List VEntry) (d : Int),
      entStories (xs.foldl (fun m st => bump m (dayKeyUTC st.completedAt) st.estimate) m) d
        = entStories m d + bucketStories xs d ∧
      entPoints (xs.foldl (fun m st => bump m (dayKeyUTC st.completedAt) st.estimate) m) d
        = entPoints m d + bucketPoints xs d := by
  induction xs with
  | nil => intro m d; simp [bucketStories, bucketPoints]
  | cons st rest ih =>
      intro m d
      rw [List.foldl_cons]
      constructor
      · rw [(ih _ d).1, bump_entStories]
        by_cases hk : dayKeyUTC st.completedAt = d
        · simp [bucketStories, hk]
          omega
        · simp [bucketStories, hk]
      · rw [(ih _ d).2, bump_entPoints]
        by_cases hk : dayKeyUTC st.completedAt = d
        · simp [bucketPoints, hk]
          ring
        · simp [bucketPoints, hk]

theorem velocityRaw_ent (stories : List AStoryView) (d : Int) :
    entStories (velocityRaw stories) d = bucketStories stories d ∧
    entPoints (velocityRaw stories) d = bucketPoints stories d := by
  have h := velocityRaw_go_ent stories [] d
  simpa [velocityRaw, entStories, entPoints] using h

theorem bump_dates_eq (m : List VEntry) (d : Int) (p : ℚ) :
    (bump m d p).map (fun e => e.date) =
      if d ∈ m.map (fun e => e.date) then m.map (fun e => e.date)
      else m.map (fun e => e.date) ++ [d] := by
  induction m with
  | nil => simp [bump]
  | cons e rest ih =>
      by_cases he : e.date = d
      · simp [bump, he]
      · have hne : ¬d = e.date := fun h => he h.symm
        simp only [bump, if_neg he, List.map_cons, List.mem_cons]
        rw [ih]
        by_cases hd : d ∈ rest.map (fun e => e.date)
        · simp [hd, hne]
        · simp [hd, hne]

theorem bump_dates_nodup (m : List VEntry) (d : Int) (p : ℚ)
    (h : (m.map (fun e => e.date)).Nodup) :
    ((bump m d p).map (fun e => e.date)).Nodup := by
  rw [bump_dates_eq]
  by_cases hd : d ∈ m.map (fun e => e.date)
  · simpa [hd] using h
  · simp only [if_neg hd]
    simp [List.nodup_append, h, hd]

theorem velocityRaw_nodup (stories : List AStoryView) :
    ((velocityRaw stories).map (fun e => e.date)).Nodup := by
  have hgen : ∀ (xs : List AStoryView) (m : List VEntry),
      (m.map (fun e => e.date)).Nodup →
      ((xs.foldl (fun m st => bump m (dayKeyUTC st.completedAt) st.estimate) m).map
        (fun e => e.date)).Nodup := by
    intro xs
    induction xs with
    | nil => intro m hm; simpa using hm
    | cons st rest ih =>
        intro m hm
        rw [List.foldl_cons]
        exact ih _ (bump_dates_nodup m _ _ hm)
  simpa [velocityRaw] using hgen stories [] (by simp)

theorem entStories_eq_zero (m : List VEntry) (d : Int)
    (h : d ∉ m.map (fun e => e.date)) :
    entStories m d = 0 ∧ entPoints m d = 0 := by
  induction m with
  | nil => simp [entStories, entPoints]
  | cons e rest ih =>
      simp only [List.map_cons, List.mem_cons] at h
      push_neg at h
      obtain ⟨h1, h2⟩ := h
      have hne : ¬e.date = d := fun hh => h1 hh.symm
      have := ih h2
      simp [entStories, entPoints, hne] at this ⊢
      exact this

theorem mem_ent_eq (m : List VEntry) (e : VEntry)
    (hnd : (m.map (fun e => e.date)).Nodup) (he : e ∈ m) :
    entStories m e.date = e.stories ∧ entPoints m e.date = e.points := by
  induction m with
  | nil => cases he
  | cons e' rest ih =>
      simp only [List.map_cons, List.nodup_cons] at hnd
      obtain ⟨hnotin, hndrest⟩ := hnd
      rcases List.mem_cons.mp he with rfl | hmem
      · have hz := entStories_eq_zero rest e.date hnotin
        simp [entStories, entPoints, hz.1, hz.2]
        constructor
        · simpa [entStories] using hz.1
        · simpa [entPoints] using hz.2
      · have hdne : ¬e'.date = e.date := by
          intro hh
          exact hnotin (hh ▸ (List.mem_map.mpr ⟨e, hmem, rfl⟩))
        have := ih hndrest hmem
        simpa [entStories, entPoints, hdne] using this

theorem bump_stories_sum (m : List VEntry) (d : Int) (p : ℚ) :
    ((bump m d p).map (fun e => e.stories)).sum =
      (m.map (fun e => e.stories)).sum + 1 := by
  induction m with
  | nil => simp [bump]
  | cons e rest ih =>
      by_cases he : e.date = d
      · simp [bump, he]
        omega
      · simp [bump, he, ih]
        omega

theorem velocityRaw_stories_sum (stories : List AStoryView) :
    ((velocityRaw stories).map (fun e => e.stories)).sum = stories.length := by
  have hgen : ∀ (xs : List AStoryView) (m : List VEntry),
      ((xs.foldl (fun m st => bump m (dayKeyUTC st.completedAt) st.estimate) m).map
        (fun e => e.stories)).sum =
        (m.map (fun e => e.stories)).sum + xs.length := by
    intro xs
    induction xs with
    | nil => intro m; simp
    | cons st rest ih =>
        intro m
        rw [List.foldl_cons, ih, bump_stories_sum]
        simp
        omega
  simpa [velocityRaw] using hgen stories []

theorem buildVelocity_sum (stories : List AStoryView) :
    ((buildVelocity stories).map (fun e => e.stories)).sum = stories.length := by
  unfold buildVelocity
  rw [((List.perm_insertionSort vle (velocityRaw stories)).map (fun e => e.stories)).sum_eq]
  exact velocityRaw_stories_sum stories

theorem dayFloor_eq_boundaryPolicyDayKey (off t : Int) :
    dayFloor off t = DAY_MS * boundaryPolicyDayKey off t - off := by
  unfold dayFloor boundaryPolicyDayKey
  have := Int.ediv_add_emod (t + off) DAY_MS
  omega

/-- **C7** (amended): for the archived rows whose `completedAt` lies in the
window `[a, b]` (excluding only the fatal shape the program throws on — a
snapshot that parses as JSON to a non-null non-array; a parse to `null` is
benign and counted with zero tasks), the summary reports `totalStories` =
their count, `totalPoints` = Σ estimate, `totalTasks` = Σ snapshot length,
`doneTasks` = Σ count of done tasks, and `ownerCount` = the size of the
distinct set of non-null **non-empty** ownerName values (the code's
truthiness test also drops the empty string); every fetched row indeed lies
in the window. -/
theorem summarize_summary_spec (db : DB) (a b : Int)
    (h : ∀ r ∈ fetchArchived db a b, r.tasksJson ≠ .rawStr .parsedNonArray) :
    summaryFold ((fetchArchived db a b).map deserializeRow) = .ok
      { totalStories := (fetchArchived db a b).length
        totalPoints := ((fetchArchived db a b).map (fun r => r.estimate)).sum
        totalTasks := ((fetchArchived db a b).map
          (fun r => tasksLen (deserializeTasks r.tasksJson))).sum
        doneTasks := ((fetchArchived db a b).map
          (fun r => doneLen (deserializeTasks r.tasksJson))).sum
        ownerCount := (((fetchArchived db a b).filterMap (fun r => r.ownerName)).filter
          (fun s => s ≠ "")).toFinset.card } ∧
    ∀ r ∈ fetchArchived db a b, a ≤ r.completedAt ∧ r.completedAt ≤ b := by
  constructor
  · have h' : ∀ st ∈ (fetchArchived db a b).map deserializeRow, st.tasks ≠ .tother := by
      intro st hst heq
      obtain ⟨r, hr, rfl⟩ := List.mem_map.mp hst
      exact h r hr ((deserializeTasks_eq_tother r.tasksJson).mp heq)
    rw [summaryFold_spec _ h']
    simp only [Except.ok.injEq, Summary.mk.injEq, List.map_map, List.filterMap_map,
      List.length_map]
    exact ⟨trivial, rfl, rfl, rfl, rfl⟩
  · intro r hr
    have := List.of_mem_filter hr
    simp at this
    exact this

theorem summarize_summary_spec_witness :
    summaryFold ((fetchArchived exADB2 0 10000).map deserializeRow) = .ok
      { totalStories := (fetchArchived exADB2 0 10000).length
        totalPoints := ((fetchArchived exADB2 0 10000).map (fun r => r.estimate)).sum
        totalTasks := ((fetchArchived exADB2 0 10000).map
          (fun r => tasksLen (deserializeTasks r.tasksJson))).sum
        doneTasks := ((fetchArchived exADB2 0 10000).map
          (fun r => doneLen (deserializeTasks r.tasksJson))).sum
        ownerCount := (((fetchArchived exADB2 0 10000).filterMap (fun r => r.ownerName)).filter
          (fun s => s ≠ "")).toFinset.card } ∧
    ∀ r ∈ fetchArchived exADB2 0 10000, 0 ≤ r.completedAt ∧ r.completedAt ≤ 10000 :=
  summarize_summary_spec exADB2 0 10000 (by decide)

/-- **C7 counterexample**: an archived row whose snapshotted `ownerName` is
the (non-null) empty string is not counted by the code's `if
(story.ownerName)` truthiness test — the fold reports `ownerCount = 0` where
the claimed "distinct set of non-null ownerName values" has size 1. -/
theorem summarize_ownerCount_counterexample :
    ∃ s : Summary, summaryFold [deserializeRow exARowEmptyOwner] = .ok s ∧
      s.ownerCount = 0 ∧ ownerCountSpec [deserializeRow exARowEmptyOwner] = 1 := by
  refine ⟨_, summaryFold_spec [deserializeRow exARowEmptyOwner] (by decide), ?_, ?_⟩
  · decide
  · decide

/-- **C8** (amended): velocity groups the stories by the **UTC** calendar
day of `completedAt` (`toISOString().slice(0, 10)`), which agrees with the
window-boundary's local-clock day policy only at zero offset; each bucket
carries the story count and estimate sum of its day, every story's day has a
bucket, the buckets are sorted non-decreasing by date, and the bucket counts
sum to `summary.totalStories` on every successful analytics response. -/
theorem velocity_spec (stories : List AStoryView) :
    List.Sorted vle (buildVelocity stories) ∧
    (∀ e ∈ buildVelocity stories,
      e.stories = bucketStories stories e.date ∧
      e.points = bucketPoints stories e.date) ∧
    (∀ st ∈ stories, ∃ e ∈ buildVelocity stories, e.date = dayKeyUTC st.completedAt) ∧
    ((buildVelocity stories).map (fun e => e.stories)).sum = stories.length ∧
    (∀ (off now : Int) (db : DB) (qf qt : DateParam) (resp : AnalyticsResp),
      analyticsArchive off now db qf qt = .ok resp →
      resp.velocity = buildVelocity resp.stories ∧
      (resp.velocity.map (fun e => e.stories)).sum = resp.summary.totalStories ∧
      List.Sorted vle resp.velocity) := by
  refine ⟨List.sorted_insertionSort vle _, ?_, ?_, buildVelocity_sum stories, ?_⟩
  · intro e hme
    have hraw : e ∈ velocityRaw stories := by
      simpa [buildVelocity] using hme
    have hnd := velocityRaw_nodup stories
    have h1 := mem_ent_eq (velocityRaw stories) e hnd hraw
    have h2 := velocityRaw_ent stories e.date
    exact ⟨h1.1 ▸ h2.1.symm ▸ rfl, h1.2 ▸ h2.2.symm ▸ rfl⟩
  · intro st hst
    by_contra hno
    push_neg at hno
    have hnotin : dayKeyUTC st.completedAt ∉
        (velocityRaw stories).map (fun e => e.date) := by
      intro hmem
      obtain ⟨e, hme, hde⟩ := List.mem_map.mp hmem
      have : e ∈ buildVelocity stories := by
        simpa [buildVelocity] using hme
      exact hno e this hde
    have hz := (entStories_eq_zero _ _ hnotin).1
    have hb := (velocityRaw_ent stories (dayKeyUTC st.completedAt)).1
    rw [hz] at hb
    have hpos : 0 < bucketStories stories (dayKeyUTC st.completedAt) := by
      unfold bucketStories
      have : st ∈ stories.filter
          (fun st' => dayKeyUTC st'.completedAt == dayKeyUTC st.completedAt) :=
        List.mem_filter.mpr ⟨hst, by simp⟩
      exact List.length_pos.mpr (List.ne_nil_of_mem this)
    omega
  · intro off now db qf qt resp hresp
    unfold analyticsArchive at hresp
    rcases hsum : summaryFold (analyticsStories off now db qf qt) with e | s
    · rw [hsum] at hresp
      simp at hresp
    · rw [hsum] at hresp
      simp only [Except.ok.injEq] at hresp
      subst hresp
      refine ⟨rfl, ?_, List.sorted_insertionSort vle _⟩
      rw [buildVelocity_sum]
      exact (summaryFold_totalStories _ s hsum).symm

/-- **C8 counterexample**: at local offset UTC+1 (3600000 ms), a story
completed at 23:30 UTC of epoch day 0 is bucketed under the UTC date (day
0), while the window-boundary computation's local-clock policy places that
instant on local day 1 (its local midnight `dayFloor` is 82800000 = day 1
boundary) — the velocity day key does not follow the boundary time-zone
policy. -/
theorem velocity_day_key_counterexample :
    (buildVelocity [stExA]).map (fun e => e.date) = [0] ∧
    dayKeyUTC stExA.completedAt = 0 ∧
    boundaryPolicyDayKey 3600000 stExA.completedAt = 1 ∧
    dayFloor 3600000 stExA.completedAt = 82800000 ∧
    ¬dayKeyUTC stExA.completedAt = boundaryPolicyDayKey 3600000 stExA.completedAt :=
  ⟨rfl, rfl, rfl, rfl, by decide⟩

/-- **C9**: a stored snapshot that is neither an array nor parseable as JSON
deserializes to the empty task list, and a request over rows all free of the
one genuinely fatal shape (JSON-parseable non-array) succeeds: the malformed
rows appear in the response with empty task lists rather than failing the
request. -/
theorem malformed_snapshot_degrades (off now : Int) (db : DB) (qf qt : DateParam)
    (h : ∀ r ∈ db.archived, r.tasksJson ≠ .rawStr .parsedNonArray) :
    ∃ resp : AnalyticsResp, analyticsArchive off now db qf qt = .ok resp ∧
      resp.stories = analyticsStories off now db qf qt ∧
      (∀ r ∈ db.archived, r.tasksJson = .rawStr .parseFail →
        (deserializeRow r).tasks = .tlist []) ∧
      (∀ r ∈ fetchArchived db (effectiveWindow off now qf qt).1
          (effectiveWindow off now qf qt).2, deserializeRow r ∈ resp.stories) := by
  have h' : ∀ st ∈ analyticsStories off now db qf qt, st.tasks ≠ .tother := by
    intro st hst heq
    unfold analyticsStories at hst
    obtain ⟨r, hr, rfl⟩ := List.mem_map.mp hst
    have hrarch : r ∈ db.archived := List.mem_of_mem_filter hr
    exact h r hrarch ((deserializeTasks_eq_tother r.tasksJson).mp heq)
  have hsum := summaryFold_spec (analyticsStories off now db qf qt) h'
  refine ⟨⟨(effectiveWindow off now qf qt).1, (effectiveWindow off now qf qt).2,
      { totalStories := (analyticsStories off now db qf qt).length
        totalPoints := ((analyticsStories off now db qf qt).map (fun st => st.estimate)).sum
        totalTasks := ((analyticsStories off now db qf qt).map
          (fun st => tasksLen st.tasks)).sum
        doneTasks := ((analyticsStories off now db qf qt).map
          (fun st => doneLen st.tasks)).sum
        ownerCount := (((analyticsStories off now db qf qt).filterMap
          (fun st => st.ownerName)).filter (fun s => s ≠ "")).toFinset.card },
      buildVelocity (analyticsStories off now db qf qt),
      analyticsStories off now db qf qt⟩, ?_, rfl, ?_, ?_⟩
  · unfold analyticsArchive
    rw [hsum]
  · intro r _ hpf
    simp [deserializeRow, hpf, deserializeTasks]
  · intro r hr
    unfold analyticsStories
    exact List.mem_map_of_mem deserializeRow hr

theorem malformed_snapshot_degrades_witness :
    ∃ resp : AnalyticsResp,
      analyticsArchive 0 0 exADB (.valid 500) (.valid 500) = .ok resp ∧
      resp.stories = analyticsStories 0 0 exADB (.valid 500) (.valid 500) ∧
      (∀ r ∈ exADB.archived, r.tasksJson = .rawStr .parseFail →
        (deserializeRow r).tasks = .tlist []) ∧
      (∀ r ∈ fetchArchived exADB (effectiveWindow 0 0 (.valid 500) (.valid 500)).1
          (effectiveWindow 0 0 (.valid 500) (.valid 500)).2,
        deserializeRow r ∈ resp.stories) :=
  malformed_snapshot_degrades 0 0 exADB (.valid 500) (.valid 500) (by decide)
